import Mathlib

/-
  Verification of the Dynamo MCP Bedrock client against its design
  specification.

  The development shallowly embeds the orchestrator logic of
  src/mcp-client-bedrock/build/index.js (class MCPClient: processQuery,
  connectToServer, chatLoop, main) and the parts of the tool server it
  interacts with.  JavaScript objects whose fields the code inspects are
  embedded as structures with Option-typed fields (undefined = none);
  JSON values are embedded as an inductive type with integer numerals;
  the Bedrock endpoint and the MCP tool channel are embedded as oracle
  functions supplied to the embedded control flow.
-/

set_option maxHeartbeats 1000000

namespace DynamoMcp

/-- JSON values as handled by JSON.parse / JSON.stringify in the client.
Numbers are embedded as integers: the repository only ever serializes
identifiers, counts and string data, and no claim depends on fractional
numerics. Object fields keep their textual order. -/
inductive Json where
  | null : Json
  | bool (b : Bool) : Json
  | num (n : Int) : Json
  | str (s : String) : Json
  | arr (xs : List Json) : Json
  | obj (fields : List (String × Json)) : Json

/-- Escape one character the way JSON.stringify escapes string content. -/
def escapeChar (c : Char) : List Char :=
  if c = '"' then ['\\', '"']
  else if c = '\\' then ['\\', '\\']
  else if c = '\n' then ['\\', 'n']
  else if c = '\t' then ['\\', 't']
  else if c = '\r' then ['\\', 'r']
  else [c]

/-- Render a string as a JSON string literal, with quotes and escapes. -/
def quoteJsonString (s : String) : String :=
  "\"" ++ String.mk (s.data.map escapeChar).flatten ++ "\""

mutual

/-- Embedding of JSON.stringify(v) (compact form, no indent argument). -/
def stringifyCompact : Json → String
  | .null => "null"
  | .bool true => "true"
  | .bool false => "false"
  | .num n => toString n
  | .str s => quoteJsonString s
  | .arr xs => "[" ++ String.intercalate "," (stringifyCompactList xs) ++ "]"
  | .obj fs => "\x7b" ++ String.intercalate "," (stringifyCompactFields fs) ++ "\x7d"

/-- Compact rendering of the elements of a JSON array. -/
def stringifyCompactList : List Json → List String
  | [] => []
  | x :: xs => stringifyCompact x :: stringifyCompactList xs

/-- Compact rendering of the fields of a JSON object. -/
def stringifyCompactFields : List (String × Json) → List String
  | [] => []
  | (k, v) :: fs => (quoteJsonString k ++ ":" ++ stringifyCompact v) :: stringifyCompactFields fs

end

/-- Indentation used by JSON.stringify(v, null, 2) at nesting depth d. -/
def indentSpaces (d : Nat) : String := String.mk (List.replicate (2 * d) ' ')

mutual

/-- Embedding of JSON.stringify(v, null, 2): two-space indented rendering.
The first argument is the current nesting depth. -/
def stringifyIndent : Nat → Json → String
  | _, .null => "null"
  | _, .bool true => "true"
  | _, .bool false => "false"
  | _, .num n => toString n
  | _, .str s => quoteJsonString s
  | d, .arr xs =>
    match xs with
    | [] => "[]"
    | _ :: _ =>
      "[\n" ++ String.intercalate ",\n" (stringifyIndentList (d + 1) xs) ++
        "\n" ++ indentSpaces d ++ "]"
  | d, .obj fs =>
    match fs with
    | [] => "\x7b\x7d"
    | _ :: _ =>
      "\x7b\n" ++ String.intercalate ",\n" (stringifyIndentFields (d + 1) fs) ++
        "\n" ++ indentSpaces d ++ "\x7d"

/-- Indented rendering of the elements of a JSON array. -/
def stringifyIndentList : Nat → List Json → List String
  | _, [] => []
  | d, x :: xs => (indentSpaces d ++ stringifyIndent d x) :: stringifyIndentList d xs

/-- Indented rendering of the fields of a JSON object. -/
def stringifyIndentFields : Nat → List (String × Json) → List String
  | _, [] => []
  | d, (k, v) :: fs =>
    (indentSpaces d ++ quoteJsonString k ++ ": " ++ stringifyIndent d v) ::
      stringifyIndentFields d fs

end

/-- JSON whitespace characters. -/
def isJsonWs (c : Char) : Bool := c = ' ' || c = '\t' || c = '\n' || c = '\r'

/-- Drop leading JSON whitespace. -/
def skipWs : List Char → List Char
  | [] => []
  | c :: cs => if isJsonWs c then skipWs cs else c :: cs

/-- Decode one escape character of a JSON string literal. -/
def unescape (c : Char) : Option Char :=
  if c = '"' then some '"'
  else if c = '\\' then some '\\'
  else if c = '/' then some '/'
  else if c = 'n' then some '\n'
  else if c = 't' then some '\t'
  else if c = 'r' then some '\r'
  else if c = 'b' then some (Char.ofNat 8)
  else if c = 'f' then some (Char.ofNat 12)
  else none

/-- Parse the remainder of a JSON string literal, after the opening quote.
Returns the decoded characters and the input after the closing quote. -/
def parseStringChars : List Char → Option (List Char × List Char)
  | [] => none
  | '"' :: rest => some ([], rest)
  | '\\' :: e :: rest =>
    match unescape e with
    | none => none
    | some c =>
      match parseStringChars rest with
      | none => none
      | some (s, r) => some (c :: s, r)
  | c :: rest =>
    match parseStringChars rest with
    | none => none
    | some (s, r) => some (c :: s, r)

/-- Split off a maximal run of decimal digits. -/
def takeDigits : List Char → List Char × List Char
  | [] => ([], [])
  | c :: cs =>
    if c.isDigit then
      let p := takeDigits cs
      (c :: p.1, p.2)
    else ([], c :: cs)

/-- Numeric value of a run of decimal digits. -/
def digitsToNat (ds : List Char) : Nat :=
  ds.foldl (fun acc c => acc * 10 + (c.toNat - 48)) 0

/-- Parse a JSON integer numeral (optional leading minus). -/
def parseNum : List Char → Option (Json × List Char)
  | '-' :: cs =>
    let p := takeDigits cs
    if p.1.isEmpty then none else some (.num (-(Int.ofNat (digitsToNat p.1))), p.2)
  | cs =>
    let p := takeDigits cs
    if p.1.isEmpty then none else some (.num (Int.ofNat (digitsToNat p.1)), p.2)

mutual

/-- Fuel-indexed recursive-descent parser for a JSON value, embedding
JSON.parse restricted to integer numerals. -/
def parseVal : Nat → List Char → Option (Json × List Char)
  | 0, _ => none
  | fuel + 1, cs =>
    match skipWs cs with
    | 'n' :: 'u' :: 'l' :: 'l' :: rest => some (.null, rest)
    | 't' :: 'r' :: 'u' :: 'e' :: rest => some (.bool true, rest)
    | 'f' :: 'a' :: 'l' :: 's' :: 'e' :: rest => some (.bool false, rest)
    | '"' :: rest =>
      match parseStringChars rest with
      | none => none
      | some (s, r) => some (.str (String.mk s), r)
    | '[' :: rest =>
      match skipWs rest with
      | ']' :: r2 => some (.arr [], r2)
      | r2 =>
        match parseElems fuel r2 with
        | none => none
        | some (xs, r3) => some (.arr xs, r3)
    | '\x7b' :: rest =>
      match skipWs rest with
      | '\x7d' :: r2 => some (.obj [], r2)
      | r2 =>
        match parseMembers fuel r2 with
        | none => none
        | some (fs, r3) => some (.obj fs, r3)
    | cs2 => parseNum cs2

/-- Parse the comma-separated elements of a nonempty JSON array, up to and
including the closing bracket. -/
def parseElems : Nat → List Char → Option (List Json × List Char)
  | 0, _ => none
  | fuel + 1, cs =>
    match parseVal fuel cs with
    | none => none
    | some (x, r) =>
      match skipWs r with
      | ',' :: r2 =>
        match parseElems fuel r2 with
        | none => none
        | some (xs, r3) => some (x :: xs, r3)
      | ']' :: r2 => some ([x], r2)
      | _ => none

/-- Parse the comma-separated members of a nonempty JSON object, up to and
including the closing brace. -/
def parseMembers : Nat → List Char → Option (List (String × Json) × List Char)
  | 0, _ => none
  | fuel + 1, cs =>
    match skipWs cs with
    | '"' :: rest =>
      match parseStringChars rest with
      | none => none
      | some (k, r) =>
        match skipWs r with
        | ':' :: r2 =>
          match parseVal fuel r2 with
          | none => none
          | some (v, r3) =>
            match skipWs r3 with
            | ',' :: r4 =>
              match parseMembers fuel r4 with
              | none => none
              | some (fs, r5) => some ((String.mk k, v) :: fs, r5)
            | '\x7d' :: r4 => some ([(String.mk k, v)], r4)
            | _ => none
        | _ => none
    | _ => none

end

/-- Embedding of JSON.parse: parse a complete JSON document, requiring the
whole input to be consumed (up to trailing whitespace). -/
def parseJson (s : String) : Option Json :=
  match parseVal (2 * s.length + 2) s.data with
  | none => none
  | some (j, rest) => if skipWs rest = [] then some j else none

/-- JavaScript truthiness of a parsed JSON value: null, false, 0 and the
empty string are falsy; every array and object is truthy. -/
def jsTruthy : Json → Bool
  | .null => false
  | .bool b => b
  | .num n => n != 0
  | .str s => s != ""
  | .arr _ => true
  | .obj _ => true

/-- JavaScript property access v.k on a parsed JSON value: a lookup on an
object (duplicate keys resolve to the last occurrence, as in JSON.parse),
undefined on every other value. -/
def jGet (j : Json) (k : String) : Option Json :=
  match j with
  | .obj fs => (fs.reverse.find? fun p => p.1 == k).map Prod.snd
  | _ => none

/-! ### Tool arguments and the query/scan fallback heuristic
Embedding of index.js lines 109-145. -/

/-- Argument object of a tool_use block, as inspected by processQuery.
Each field the code reads is embedded as an Option (undefined = none);
properties the code never reads individually are kept in others so that
an arbitrary argument map can be represented and carried through. -/
structure ToolArgs where
  tableName : Option Json := none
  keyConditionExpression : Option String := none
  filterExpression : Option String := none
  expressionAttributeNames : Option Json := none
  expressionAttributeValues : Option (List (String × Json)) := none
  limit : Option Json := none
  others : List (String × Json) := []

/-- Argument object built for the scan fallback (index.js lines 124-130).
It has no keyConditionExpression field at all. -/
structure ScanArgs where
  tableName : Option Json
  filterExpression : Option String
  expressionAttributeNames : Option Json
  expressionAttributeValues : Option (List (String × Json))
  limit : Option Json

/-- Argument object actually dispatched over mcp.callTool: either the scan
fallback object or the original tool_use argument object, unmodified. -/
inductive CallArgs where
  | scan (args : ScanArgs) : CallArgs
  | orig (args : ToolArgs) : CallArgs

/-- JavaScript word character, as matched by the \w class underlying the
\b boundaries of the partition-key regex. -/
def wordChar (c : Char) : Bool := c.isAlphanum || c = '_'

/-- Whether a word boundary precedes the current position, given the
previous character (none at the start of the string). -/
def boundaryBefore : Option Char → Bool
  | none => true
  | some c => !wordChar c

/-- Whether a word boundary follows, given the remaining characters. -/
def boundaryAfter : List Char → Bool
  | [] => true
  | c :: _ => !wordChar c

/-- Matches the first regex branch \bid\b at the current position. -/
def matchIdWord (prev : Option Char) : List Char → Bool
  | 'i' :: 'd' :: rest => boundaryBefore prev && boundaryAfter rest
  | _ => false

/-- Matches the second regex branch #id\b at the current position. -/
def matchHashId : List Char → Bool
  | '#' :: 'i' :: 'd' :: rest => boundaryAfter rest
  | _ => false

/-- Scanning loop of RegExp.test for the pattern \bid\b|#id\b: try a match
at every position of the input. -/
def testIdRegexAux (prev : Option Char) : List Char → Bool
  | [] => matchIdWord prev [] || matchHashId []
  | c :: cs =>
    matchIdWord prev (c :: cs) || matchHashId (c :: cs) ||
      testIdRegexAux (some c) cs

/-- Embedding of new RegExp("\\bid\\b|#id\\b").test(s): the string contains
the partition-key name id as a whole word, or as #id followed by a word
boundary (index.js line 118). -/
def testIdRegex (s : String) : Bool := testIdRegexAux none s.data

/-- Embedding of /[<>!=]/.test(s) (index.js line 120). -/
def hasCmpChar (s : String) : Bool :=
  s.data.any fun c => c = '<' || c = '>' || c = '!' || c = '='

/-- JavaScript falsiness of an optional string: undefined or empty. -/
def jsFalsyStr : Option String → Bool
  | none => true
  | some s => s == ""

/-- The string value a JavaScript string-typed property coerces to when
handed to the regex tests (undefined never actually reaches them because
the disjunctions short-circuit first). -/
def jsStr (o : Option String) : String := o.getD ""

/-- Embedding of the missingPartitionKey check (index.js lines 115-118):
the key condition is falsy, or the value map is absent, or it has no keys,
or the condition does not match the partition-key regex. -/
def missingPartitionKey (a : ToolArgs) : Bool :=
  jsFalsyStr a.keyConditionExpression ||
  a.expressionAttributeValues.isNone ||
  (a.expressionAttributeValues.getD []).isEmpty ||
  !testIdRegex (jsStr a.keyConditionExpression)

/-- Embedding of isInvalidKeyCondition (index.js lines 119-120). -/
def isInvalidKeyCondition (a : ToolArgs) : Bool :=
  missingPartitionKey a || hasCmpChar (jsStr a.keyConditionExpression)

/-- Embedding of the JavaScript expression a || b on string-typed
properties: the left value when truthy, otherwise the right value. -/
def jsOrStr (a b : Option String) : Option String :=
  match a with
  | some s => if s = "" then b else some s
  | none => b

/-- The scan fallback argument object (index.js lines 124-130): the filter
expression is the original filterExpression if truthy, otherwise the
original keyConditionExpression; names, values and limit carry over. -/
def scanArgsOf (a : ToolArgs) : ScanArgs :=
  { tableName := a.tableName,
    filterExpression := jsOrStr a.filterExpression a.keyConditionExpression,
    expressionAttributeNames := a.expressionAttributeNames,
    expressionAttributeValues := a.expressionAttributeValues,
    limit := a.limit }

/-- The dispatch decision of processQuery for one tool_use block (index.js
lines 122-145): the call is rewritten to scan_table with the fallback
arguments exactly when the requested tool name is query_table and the key
condition is judged invalid; otherwise the original name and argument map
are dispatched unmodified. -/
def dispatchOf (toolName : String) (toolArgs : ToolArgs) : String × CallArgs :=
  if toolName == "query_table" && isInvalidKeyCondition toolArgs then
    ("scan_table", CallArgs.scan (scanArgsOf toolArgs))
  else
    (toolName, CallArgs.orig toolArgs)

/-! ### Wire rendering of argument objects -/

/-- One optional property of a JavaScript object as it appears after JSON
serialization: present fields keep their value, undefined fields vanish. -/
def optField (k : String) (v : Option Json) : List (String × Json) :=
  match v with
  | some j => [(k, j)]
  | none => []

/-- JSON image of an original tool_use argument object. -/
def toolArgsWire (a : ToolArgs) : Json :=
  Json.obj (optField "tableName" a.tableName ++
    optField "keyConditionExpression" (a.keyConditionExpression.map Json.str) ++
    optField "filterExpression" (a.filterExpression.map Json.str) ++
    optField "expressionAttributeNames" a.expressionAttributeNames ++
    optField "expressionAttributeValues" (a.expressionAttributeValues.map Json.obj) ++
    optField "limit" a.limit ++
    a.others)

/-- JSON image of a scan fallback argument object. -/
def scanArgsWire (s : ScanArgs) : Json :=
  Json.obj (optField "tableName" s.tableName ++
    optField "filterExpression" (s.filterExpression.map Json.str) ++
    optField "expressionAttributeNames" s.expressionAttributeNames ++
    optField "expressionAttributeValues" (s.expressionAttributeValues.map Json.obj) ++
    optField "limit" s.limit)

/-- JSON image of whichever argument object is dispatched. -/
def callArgsWire : CallArgs → Json
  | .scan s => scanArgsWire s
  | .orig a => toolArgsWire a

/-- Property names of a JSON object (empty for other values). -/
def objKeys : Json → List String
  | .obj fs => fs.map Prod.fst
  | _ => []

/-- The console trace pushed for a dispatched call (index.js lines 136,
144 and 164). -/
def callTrace (name : String) (args : CallArgs) : String :=
  "[Calling tool " ++ name ++ " with args " ++ stringifyCompact (callArgsWire args) ++ "]"

/-! ### Tool results and transcript augmentation
Embedding of index.js lines 146-204. -/

/-- Content of an mcp.callTool result as the client inspects it: either a
plain string or a list of content blocks (arbitrary JSON objects). -/
inductive ToolContent where
  | str (s : String) : ToolContent
  | blocks (bs : List Json) : ToolContent

/-- Result of an mcp.callTool invocation. -/
structure ToolResult where
  content : ToolContent

/-- The text the best-effort items extraction tries to JSON.parse (index.js
lines 182-188): a string content directly, otherwise the text property of
the first content block when it is a string. -/
def parseSourceText : ToolContent → Option String
  | .str s => some s
  | .blocks [] => none
  | .blocks (b :: _) =>
    match jGet b "text" with
    | some (Json.str t) => some t
    | _ => none

/-- toolResultContent (index.js line 178): the content string itself, or
the JSON serialization of the content block list. -/
def toolResultContentOf : ToolContent → String
  | .str s => s
  | .blocks bs => stringifyCompact (Json.arr bs)

/-- The itemsText appended to the tool_result transcript message (index.js
lines 180-193): when the payload parses as JSON, the parsed value is truthy
and its items property is truthy, the indented JSON rendering of that
property prefixed by a marker line; otherwise empty (parse failures are
swallowed by the catch). -/
def itemsTextOf (c : ToolContent) : String :=
  match parseSourceText c with
  | none => ""
  | some s =>
    match parseJson s with
    | none => ""
    | some j =>
      if jsTruthy j then
        match jGet j "items" with
        | some it => if jsTruthy it then "\nActual items:\n" ++ stringifyIndent 0 it else ""
        | none => ""
      else ""

/-! ### Transcript messages, client state and model requests -/

/-- A transcript message, in the three shapes processQuery pushes
(index.js lines 57-67, 166-176 and 195-204). -/
inductive Message where
  | user (text : String) : Message
  | assistantToolUse (id name : String) (input : ToolArgs) : Message
  | userToolResult (tool_use_id : String) (content : String) : Message

/-- The tool_result message appended to the transcript for a tool result
(index.js lines 195-204): the serialized result content with the extracted
items text appended. -/
def toolResultMessage (cid : String) (c : ToolContent) : Message :=
  Message.userToolResult cid (toolResultContentOf c ++ itemsTextOf c)

/-- A tool descriptor as stored by the client and sent to Bedrock. -/
structure ToolSpec where
  name : String
  description : String
  input_schema : Json

/-- A tool descriptor as advertised by the server over listTools. -/
structure RawTool where
  name : String
  description : Option String
  inputSchema : Json

/-- State of an MCPClient instance: the fields of the class that influence
model requests (index.js lines 12-22). -/
structure MCPClientState where
  modelId : String
  inferenceProfileId : Option String
  tools : List ToolSpec

/-- The MCPClient constructor (index.js lines 19-22). Its parameter is
never assigned to the instance, so inferenceProfileId stays null and the
model id keeps its initializer. -/
def mkMCPClient (inferenceProfileId : Option String) : MCPClientState :=
  { modelId := "anthropic.claude-3-sonnet-20240229-v1:0",
    inferenceProfileId := none,
    tools := [] }

/-- Embedding of the JavaScript String.prototype.endsWith test. -/
def jsEndsWith (s suffix : String) : Bool := suffix.data.isSuffixOf s.data

/-- connectToServer (index.js lines 23-54): rejects a server path that is
neither .js nor .py, then stores the advertised catalog with descriptions
defaulted to the empty string; a listTools failure is rethrown. -/
def connectToServer (st : MCPClientState) (serverScriptPath : String)
    (listTools : Except String (List RawTool)) : Except String MCPClientState :=
  if !jsEndsWith serverScriptPath ".js" && !jsEndsWith serverScriptPath ".py" then
    Except.error "Server script must be a .js or .py file"
  else
    match listTools with
    | .error e => .error e
    | .ok ts =>
      .ok { st with tools := ts.map fun t =>
              { name := t.name, description := t.description.getD "",
                input_schema := t.inputSchema } }

/-- Model request payload (index.js lines 77-86 and 206-215). The decimal
generation parameters are embedded as their literal source text; they are
constants that are never computed with. -/
structure Payload where
  anthropic_version : String
  max_tokens : Nat
  top_k : Nat
  stop_sequences : List String
  temperature : String
  top_p : String
  messages : List Message
  tools : Option (List ToolSpec)

/-- InvokeModelCommand parameters (index.js lines 88-97 and 216-221). -/
structure Request where
  modelId : String
  contentType : String
  accept : String
  body : Payload
  inferenceProfileArn : Option String

/-- The a || b defaulting applied to tool descriptions. -/
def jsOrString (a b : String) : String := if a = "" then b else a

/-- The tool catalog in Bedrock format (index.js lines 69-75). -/
def toolsForBedrock (st : MCPClientState) : List ToolSpec :=
  st.tools.map fun t =>
    { name := t.name, description := jsOrString t.description "",
      input_schema := t.input_schema }

/-- Build a model request payload from the current message list: fixed
generation parameters plus the tool catalog when it is nonempty.  The
initial payload omits the tools key for an empty catalog and the follow-up
payload sets it to undefined; both serialize identically, so one embedding
covers both (index.js lines 69-86 and 206-215). -/
def mkPayload (st : MCPClientState) (msgs : List Message) : Payload :=
  { anthropic_version := "bedrock-2023-05-31",
    max_tokens := 1000,
    top_k := 250,
    stop_sequences := [],
    temperature := "0.7",
    top_p := "0.999",
    messages := msgs,
    tools := if st.tools.length > 0 then some (toolsForBedrock st) else none }

/-- JavaScript truthiness of an optional string. -/
def jsTruthyStr : Option String → Bool
  | none => false
  | some s => s != ""

/-- Build InvokeModelCommand parameters from a payload: the fixed model id
and content types, with inferenceProfileArn attached only when the
instance field is truthy (index.js lines 88-97). -/
def mkCommandParams (st : MCPClientState) (p : Payload) : Request :=
  { modelId := st.modelId,
    contentType := "application/json",
    accept := "application/json",
    body := p,
    inferenceProfileArn :=
      if jsTruthyStr st.inferenceProfileId then st.inferenceProfileId else none }

/-! ### The per-turn control flow of processQuery -/

/-- A content block of a Bedrock model response. -/
inductive RespBlock where
  | text (s : String) : RespBlock
  | tool_use (id name : String) (input : ToolArgs) : RespBlock

/-- A parsed Bedrock model response body. -/
structure ModelResponse where
  content : List RespBlock

/-- The text contributed by a follow-up response (index.js lines 225-227):
the text of its first content block when that block is a text block. -/
def followUpTexts (resp : ModelResponse) : List String :=
  match resp.content with
  | RespBlock.text s :: _ => [s]
  | _ => []

/-- Mutable state of one processQuery invocation while its response blocks
are processed: the transcript, the accumulated display fragments, the
pushed tool results, the model requests issued so far, the index of the
next model invocation, and the pending error of a failed invocation. -/
structure TState where
  msgs : List Message
  texts : List String
  toolResults : List ToolResult
  reqs : List Request
  idx : Nat
  err : Option String

/-- Processing of one response content block (index.js lines 105-228).
A text block accumulates output.  A tool_use block dispatches the possibly
rewritten call, pushes the result and its trace line, then pushes the same
result and the trace line of the originally requested call a second time
(lines 163-164), appends the tool_use and tool_result messages to the
transcript, and issues exactly one follow-up model request; an error of
that request is recorded and aborts the turn (every later block is
skipped, as the thrown error skips the rest of the loop body). -/
def stepBlock (st0 : MCPClientState) (oracle : Nat → Except String ModelResponse)
    (tool : String → CallArgs → ToolResult) (st : TState) (b : RespBlock) : TState :=
  if st.err.isSome then st else
  match b with
  | .text s => { st with texts := st.texts ++ [s] }
  | .tool_use cid name args =>
    let d := dispatchOf name args
    let result := tool d.1 d.2
    let msgs2 := st.msgs ++
      [Message.assistantToolUse cid name args, toolResultMessage cid result.content]
    let base : TState :=
      { msgs := msgs2,
        texts := st.texts ++ [callTrace d.1 d.2, callTrace name (CallArgs.orig args)],
        toolResults := st.toolResults ++ [result, result],
        reqs := st.reqs ++ [mkCommandParams st0 (mkPayload st0 msgs2)],
        idx := st.idx + 1,
        err := st.err }
    match oracle st.idx with
    | .error e => { base with err := some e }
    | .ok resp => { base with texts := base.texts ++ followUpTexts resp }

/-- Observable trace of one processQuery invocation. -/
structure TurnTrace where
  msgs : List Message
  texts : List String
  toolResults : List ToolResult
  reqs : List Request
  err : Option String

/-- One processQuery invocation (index.js lines 55-236).  A fresh message
list containing only the current user message is created, the initial
model request is issued, and on success every response content block is
processed in order.  The Bedrock endpoint is an oracle from invocation
index to response-or-error; the tool channel is an oracle from dispatched
name and arguments to a result. -/
def runTurn (st0 : MCPClientState) (oracle : Nat → Except String ModelResponse)
    (tool : String → CallArgs → ToolResult) (query : String) : TurnTrace :=
  let msgs0 := [Message.user query]
  let req0 := mkCommandParams st0 (mkPayload st0 msgs0)
  match oracle 0 with
  | .error e =>
    { msgs := msgs0, texts := [], toolResults := [], reqs := [req0], err := some e }
  | .ok resp =>
    let stEnd := List.foldl (stepBlock st0 oracle tool)
      { msgs := msgs0, texts := [], toolResults := [], reqs := [req0], idx := 1, err := none }
      resp.content
    { msgs := stEnd.msgs, texts := stEnd.texts, toolResults := stEnd.toolResults,
      reqs := stEnd.reqs, err := stEnd.err }

/-- The string processQuery returns to its caller: the joined display
fragments on success, the error-annotated string built by the catch block
(index.js lines 232-235) when a model invocation failed. -/
def turnOutput (tr : TurnTrace) : String :=
  match tr.err with
  | some e => "Error: " ++ e
  | none => String.intercalate "\n" tr.texts

/-- processQuery as a function from the query to the displayed string. -/
def processQuery (st0 : MCPClientState) (oracle : Nat → Except String ModelResponse)
    (tool : String → CallArgs → ToolResult) (query : String) : String :=
  turnOutput (runTurn st0 oracle tool query)

/-! ### The interactive loop and main -/

/-- Embedding of the JavaScript String.prototype.toLowerCase call used on
input lines (the inputs of interest are ASCII keywords). -/
def jsToLower (s : String) : String := String.mk (s.data.map Char.toLower)

/-- chatLoop (index.js lines 237-260), from the list of input lines, with
one Bedrock oracle per turn.  The loop stops at the quit keyword, skips
the tools keyword without starting a turn, and otherwise runs a turn whose
trace is recorded with its input line.  The first argument counts the
turns already run, so that each turn gets its own oracle. -/
def chatLoop (st0 : MCPClientState) (oracle : Nat → Nat → Except String ModelResponse)
    (tool : String → CallArgs → ToolResult) : Nat → List String → List (String × TurnTrace)
  | _, [] => []
  | k, line :: rest =>
    if jsToLower line = "quit" then []
    else if jsToLower line = "tools" then chatLoop st0 oracle tool k rest
    else (line, runTurn st0 (oracle k) tool line) :: chatLoop st0 oracle tool (k + 1) rest

/-- The inference profile id main hardcodes (index.js line 271); the
command-line argument is never read. -/
def mainInferenceProfileId : String := "us.anthropic.claude-opus-4-1-20250805-v1:0"

/-- Observable outcome of running main. -/
structure MainResult where
  exitCode : Nat
  enteredChatLoop : Bool
  printedUsage : Bool
  turns : List (String × TurnTrace)

/-- main (index.js lines 265-288).  With fewer than three argv entries a
usage message is printed and the process ends without an explicit exit
call (code 0).  Otherwise the client is constructed with the hardcoded
profile id and connected; the chat loop runs only when connection
succeeded, and the finally block calls process.exit(0) unconditionally, on
the connection-failure path as well as after a graceful quit. -/
def mainRun (argv : List String) (listTools : Except String (List RawTool))
    (oracle : Nat → Nat → Except String ModelResponse)
    (tool : String → CallArgs → ToolResult) (lines : List String) : MainResult :=
  if argv.length < 3 then
    { exitCode := 0, enteredChatLoop := false, printedUsage := true, turns := [] }
  else
    match connectToServer (mkMCPClient (some mainInferenceProfileId)) (argv.getD 2 "") listTools with
    | .error _ =>
      { exitCode := 0, enteredChatLoop := false, printedUsage := false, turns := [] }
    | .ok client =>
      { exitCode := 0, enteredChatLoop := true, printedUsage := false,
        turns := chatLoop client oracle tool 0 lines }

/-! ### Transcript pairing predicates -/

/-- Whether a transcript message is an assistant tool_use message. -/
def isUseMsg : Message → Bool
  | .assistantToolUse _ _ _ => true
  | _ => false

/-- Number of tool-invocation-request messages in a transcript. -/
def countUses (ms : List Message) : Nat := (ms.filter isUseMsg).length

/-- Every tool-invocation-request message is immediately followed by
exactly one tool-result message carrying the same correlation id, and
tool-result messages appear only in that position. -/
def wellPaired : List Message → Bool
  | [] => true
  | Message.user _ :: rest => wellPaired rest
  | Message.assistantToolUse id1 _ _ :: Message.userToolResult id2 _ :: rest =>
    id1 == id2 && wellPaired rest
  | Message.assistantToolUse _ _ _ :: _ => false
  | Message.userToolResult _ _ :: _ => false

/-- The message list ends with a tool_use message immediately followed by
its matching tool_result message. -/
def endsWithMatchedPair (ms : List Message) : Bool :=
  match ms.reverse with
  | Message.userToolResult id2 _ :: Message.assistantToolUse id1 _ _ :: _ => id1 == id2
  | _ => false

/-- Whether an Except value is a success. -/
def exceptOk {ε α : Type} : Except ε α → Bool
  | .ok _ => true
  | .error _ => false

/-- Text fragments contributed by the follow-up model invocation with
index n: the first text block of the response, nothing on error. -/
def followUpTextsAt (oracle : Nat → Except String ModelResponse) (n : Nat) : List String :=
  match oracle n with
  | .ok resp => followUpTexts resp
  | .error _ => []

/-- Invariant of the block-processing state: the transcript is well
paired, there is exactly one request per appended tool use on top of the
initial request, every follow-up request snapshot ends with a matched
tool_use/tool_result pair, and the request list is nonempty. -/
def TurnInv (st : TState) : Prop :=
  wellPaired st.msgs = true ∧
  st.reqs.length = 1 + countUses st.msgs ∧
  ((st.reqs.drop 1).all fun r => endsWithMatchedPair r.body.messages) = true ∧
  st.reqs ≠ []

/-! ## Helper lemmas -/

/-- The keyConditionExpression key never occurs in the wire image of a
scan fallback argument object, whatever its field values. -/
theorem keyCondition_not_in_scanWire (s : ScanArgs) :
    "keyConditionExpression" ∉ objKeys (scanArgsWire s) := by
  rcases s with ⟨t, f, n, v, l⟩
  cases t <;> cases f <;> cases n <;> cases v <;> cases l <;>
    simp [scanArgsWire, objKeys, optField]

/-- Each of the invalidity conditions named by the specification implies
the isInvalidKeyCondition test of the code. -/
theorem invalid_of_claim_conditions (a : ToolArgs)
    (h : testIdRegex (jsStr a.keyConditionExpression) = false ∨
         a.expressionAttributeValues.getD [] = [] ∨
         hasCmpChar (jsStr a.keyConditionExpression) = true) :
    isInvalidKeyCondition a = true := by
  rcases h with h | h | h
  · unfold isInvalidKeyCondition missingPartitionKey
    simp [h]
  · unfold isInvalidKeyCondition missingPartitionKey
    rcases hv : a.expressionAttributeValues with _ | l
    · simp
    · rw [hv] at h
      simp only [Option.getD_some] at h
      simp [h]
  · unfold isInvalidKeyCondition
    simp [h]

/-! ## Claims -/

/-- Claim C1: every tool-use block requesting the query operation whose
keyConditionExpression lacks the partition-key token id (bare or as #id),
or whose expressionAttributeValues map is absent or empty, or whose
keyConditionExpression contains one of the characters less-than,
greater-than, bang or equals, is rewritten by the orchestrator and
dispatched as the scan operation with the fallback argument object instead
of the requested query operation. -/
theorem claim_C1_invalid_query_rewritten_to_scan (a : ToolArgs)
    (h : testIdRegex (jsStr a.keyConditionExpression) = false ∨
         a.expressionAttributeValues.getD [] = [] ∨
         hasCmpChar (jsStr a.keyConditionExpression) = true) :
    dispatchOf "query_table" a = ("scan_table", CallArgs.scan (scanArgsOf a)) := by
  unfold dispatchOf
  simp [invalid_of_claim_conditions a h]

/-- Witness for claim C1: a query with the range condition name > :v and a
nonempty value map is dispatched as scan_table with the fallback
arguments. -/
theorem claim_C1_witness :
    hasCmpChar (jsStr (some "name > :v")) = true ∧
    dispatchOf "query_table"
        { keyConditionExpression := some "name > :v",
          expressionAttributeValues := some [(":v", Json.str "x")] }
      = ("scan_table", CallArgs.scan (scanArgsOf
          { keyConditionExpression := some "name > :v",
            expressionAttributeValues := some [(":v", Json.str "x")] })) :=
  ⟨rfl, claim_C1_invalid_query_rewritten_to_scan _ (Or.inr (Or.inr rfl))⟩

/-- Claim C2 evaluated at its failing input (code bug): the valid
equality-only condition id = :v with a nonempty value map is NOT
dispatched unmodified as a query; the code rewrites it to scan_table,
because the character class of index.js line 120 also matches the equals
sign of the equality itself. -/
theorem claim_C2_bug_equality_query_is_rewritten :
    dispatchOf "query_table"
        { tableName := some (Json.str "T"),
          keyConditionExpression := some "id = :v",
          expressionAttributeValues := some [(":v", Json.str "1")] }
      = ("scan_table", CallArgs.scan
          { tableName := some (Json.str "T"),
            filterExpression := some "id = :v",
            expressionAttributeNames := none,
            expressionAttributeValues := some [(":v", Json.str "1")],
            limit := none }) := rfl

/-- Counterexample to claim C3 as stated: when the model supplies an
explicit but empty filterExpression together with an invalid key
condition, the dispatched scan carries the key-condition text as its
filter, not the given (empty) filterExpression. -/
theorem claim_C3_counterexample :
    (let a : ToolArgs :=
      { keyConditionExpression := some "name > :v",
        filterExpression := some "",
        expressionAttributeValues := some [(":v", Json.str "x")] }
     a.filterExpression = some "" ∧
     dispatchOf "query_table" a = ("scan_table", CallArgs.scan (scanArgsOf a)) ∧
     (scanArgsOf a).filterExpression = some "name > :v" ∧
     (scanArgsOf a).filterExpression ≠ a.filterExpression) :=
  ⟨rfl, rfl, rfl, by decide⟩

/-- Claim C3 as amended: whenever the fallback heuristic rewrites a call
to a scan, the dispatched scan argument map carries a filterExpression
equal to the original filterExpression if a nonempty one was given and
otherwise equal to the original keyConditionExpression, carries over the
original expressionAttributeNames, expressionAttributeValues and limit,
and contains no keyConditionExpression field, so the derived filter and
the original key condition are never both present. -/
theorem claim_C3_scan_args_carry_over (name : String) (a : ToolArgs) (s : ScanArgs)
    (h : dispatchOf name a = ("scan_table", CallArgs.scan s)) :
    s.tableName = a.tableName ∧
    (∀ f, a.filterExpression = some f → f ≠ "" → s.filterExpression = some f) ∧
    ((a.filterExpression = none ∨ a.filterExpression = some "") →
      s.filterExpression = a.keyConditionExpression) ∧
    s.expressionAttributeNames = a.expressionAttributeNames ∧
    s.expressionAttributeValues = a.expressionAttributeValues ∧
    s.limit = a.limit ∧
    "keyConditionExpression" ∉ objKeys (callArgsWire (CallArgs.scan s)) := by
  have hs : s = scanArgsOf a := by
    unfold dispatchOf at h
    by_cases hc : (name == "query_table" && isInvalidKeyCondition a) = true
    · rw [if_pos hc] at h
      have := congrArg Prod.snd h
      simp only at this
      cases this
      rfl
    · rw [if_neg hc] at h
      have := congrArg Prod.snd h
      simp only at this
      cases this
  subst hs
  refine ⟨rfl, ?_, ?_, rfl, rfl, rfl, keyCondition_not_in_scanWire _⟩
  · intro f hf hne
    unfold scanArgsOf jsOrStr
    rw [hf]
    simp [hne]
  · intro hcase
    unfold scanArgsOf jsOrStr
    rcases hcase with hf | hf <;> rw [hf] <;> simp

/-- Witness for the amended claim C3: applied to a rewritten query with a
range condition, no explicit filter and a limit. -/
theorem claim_C3_witness :
    dispatchOf "query_table"
        { keyConditionExpression := some "id > :v",
          expressionAttributeValues := some [(":v", Json.num 1)],
          limit := some (Json.num 10) }
      = ("scan_table", CallArgs.scan (scanArgsOf
          { keyConditionExpression := some "id > :v",
            expressionAttributeValues := some [(":v", Json.num 1)],
            limit := some (Json.num 10) })) ∧
    ((scanArgsOf { keyConditionExpression := some "id > :v",
                   expressionAttributeValues := some [(":v", Json.num 1)],
                   limit := some (Json.num 10) : ToolArgs }).filterExpression
        = some "id > :v" ∧
     (scanArgsOf { keyConditionExpression := some "id > :v",
                   expressionAttributeValues := some [(":v", Json.num 1)],
                   limit := some (Json.num 10) : ToolArgs }).limit = some (Json.num 10) ∧
     "keyConditionExpression" ∉ objKeys (callArgsWire (CallArgs.scan (scanArgsOf
          { keyConditionExpression := some "id > :v",
            expressionAttributeValues := some [(":v", Json.num 1)],
            limit := some (Json.num 10) })))) := by
  refine ⟨rfl, rfl, rfl, ?_⟩
  exact (claim_C3_scan_args_carry_over "query_table"
    { keyConditionExpression := some "id > :v",
      expressionAttributeValues := some [(":v", Json.num 1)],
      limit := some (Json.num 10) }
    (scanArgsOf
      { keyConditionExpression := some "id > :v",
        expressionAttributeValues := some [(":v", Json.num 1)],
        limit := some (Json.num 10) })
    rfl).2.2.2.2.2.2

/-- Counterexample to claim C5 as stated: when the server subprocess
cannot be spawned (the listTools call fails), main exits with code 0, not
with code 1 — the finally block calls process.exit(0) unconditionally. -/
theorem claim_C5_counterexample :
    (mainRun ["node", "build/index.js", "server.js"] (Except.error "spawn failed")
        (fun _ _ => Except.error "unused")
        (fun _ _ => { content := ToolContent.str "" }) []).exitCode = 0 ∧
    (mainRun ["node", "build/index.js", "server.js"] (Except.error "spawn failed")
        (fun _ _ => Except.error "unused")
        (fun _ _ => { content := ToolContent.str "" }) []).exitCode ≠ 1 ∧
    (mainRun ["node", "build/index.js", "server.js"] (Except.error "spawn failed")
        (fun _ _ => Except.error "unused")
        (fun _ _ => { content := ToolContent.str "" }) []).enteredChatLoop = false := by
  refine ⟨rfl, ?_, rfl⟩
  decide

/-- Claim C5 as amended: the process exits with code 0 on a graceful quit
AND on a fatal startup error (the cleanup block exits 0 unconditionally);
a startup failure still prevents the interactive loop from ever being
entered. -/
theorem claim_C5_exit_codes (argv : List String)
    (listTools : Except String (List RawTool))
    (oracle : Nat → Nat → Except String ModelResponse)
    (tool : String → CallArgs → ToolResult) (lines : List String) :
    (mainRun argv listTools oracle tool lines).exitCode = 0 ∧
    (mainRun argv listTools oracle tool lines).enteredChatLoop =
      (!decide (argv.length < 3) &&
        exceptOk (connectToServer (mkMCPClient (some mainInferenceProfileId))
          (argv.getD 2 "") listTools)) := by
  unfold mainRun
  by_cases hlen : argv.length < 3
  · simp [hlen]
  · cases hc : connectToServer (mkMCPClient (some mainInferenceProfileId))
        (argv.getD 2 "") listTools <;>
      simp [hlen, hc, exceptOk]

/-- Processing one response block only ever appends to the transcript and
to the request list. -/
theorem stepBlock_extends (st0 : MCPClientState) (oracle : Nat → Except String ModelResponse)
    (tool : String → CallArgs → ToolResult) (st : TState) (b : RespBlock) :
    ∃ exm exr, (stepBlock st0 oracle tool st b).msgs = st.msgs ++ exm ∧
      (stepBlock st0 oracle tool st b).reqs = st.reqs ++ exr := by
  cases herr : st.err.isSome with
  | true => exact ⟨[], [], by simp [stepBlock, herr], by simp [stepBlock, herr]⟩
  | false =>
    cases b with
    | text s => exact ⟨[], [], by simp [stepBlock, herr], by simp [stepBlock, herr]⟩
    | tool_use cid name args =>
      cases horacle : oracle st.idx <;>
        exact ⟨[Message.assistantToolUse cid name args,
                toolResultMessage cid (tool (dispatchOf name args).1 (dispatchOf name args).2).content],
               [mkCommandParams st0 (mkPayload st0 (st.msgs ++
                 [Message.assistantToolUse cid name args,
                  toolResultMessage cid
                    (tool (dispatchOf name args).1 (dispatchOf name args).2).content]))],
               by simp [stepBlock, herr, horacle],
               by simp [stepBlock, herr, horacle]⟩

/-- Folding block processing over any block list only ever appends to the
transcript and to the request list. -/
theorem foldl_stepBlock_extends (st0 : MCPClientState)
    (oracle : Nat → Except String ModelResponse) (tool : String → CallArgs → ToolResult) :
    ∀ (bs : List RespBlock) (st : TState),
      ∃ exm exr, (List.foldl (stepBlock st0 oracle tool) st bs).msgs = st.msgs ++ exm ∧
        (List.foldl (stepBlock st0 oracle tool) st bs).reqs = st.reqs ++ exr := by
  intro bs
  induction bs with
  | nil => exact fun st => ⟨[], [], by simp, by simp⟩
  | cons b bs ih =>
    intro st
    obtain ⟨exm1, exr1, h1, h2⟩ := stepBlock_extends st0 oracle tool st b
    obtain ⟨exm2, exr2, h3, h4⟩ := ih (stepBlock st0 oracle tool st b)
    refine ⟨exm1 ++ exm2, exr1 ++ exr2, ?_, ?_⟩
    · rw [List.foldl_cons, h3, h1, List.append_assoc]
    · rw [List.foldl_cons, h4, h2, List.append_assoc]

/-- Counterexample to claim C4 as stated: in a session with the two user
lines hello and world, the model request of the second ProcessQuery
invocation contains only the second user message — the first turn is
absent from it, so the transcript does not accumulate across turns. -/
theorem claim_C4_counterexample :
    ((chatLoop (mkMCPClient none) (fun _ _ => Except.ok { content := [RespBlock.text "hi"] })
        (fun _ _ => { content := ToolContent.str "" }) 0 ["hello", "world"]).map
      fun p => p.2.reqs.map fun r => r.body.messages)
      = [[[Message.user "hello"]], [[Message.user "world"]]] ∧
    Message.user "hello" ∉ [Message.user "world"] := by
  refine ⟨rfl, ?_⟩
  intro hmem
  simp only [List.mem_singleton] at hmem
  injection hmem with hh
  exact absurd hh (by decide)

/-- Claim C4 as amended: every ProcessQuery invocation builds a fresh
message list; its transcript starts with the current user message and the
initial model request contains exactly that one message, whatever happened
in earlier turns. -/
theorem claim_C4_fresh_transcript_per_turn (st0 : MCPClientState)
    (oracle : Nat → Except String ModelResponse) (tool : String → CallArgs → ToolResult)
    (query : String) :
    (runTurn st0 oracle tool query).msgs.head? = some (Message.user query) ∧
    ((runTurn st0 oracle tool query).reqs.head?.map fun r => r.body.messages)
      = some [Message.user query] := by
  unfold runTurn
  cases horacle : oracle 0 with
  | error e => exact ⟨rfl, rfl⟩
  | ok resp =>
    obtain ⟨exm, exr, hm, hr⟩ := foldl_stepBlock_extends st0 oracle tool resp.content
      { msgs := [Message.user query],
        reqs := [mkCommandParams st0 (mkPayload st0 [Message.user query])],
        texts := [], toolResults := [], idx := 1, err := none }
    constructor
    · simp only [hm, List.singleton_append, List.head?_cons]
    · simp only [hr, List.singleton_append, List.head?_cons, Option.map_some]
      rfl

/-- Claim C8: an error raised by a model invocation during a turn is
caught by ProcessQuery, which returns the error-annotated string to the
caller instead of raising, and the interactive loop then still runs the
following turn normally. -/
theorem claim_C8_model_error_caught (st0 : MCPClientState)
    (tool : String → CallArgs → ToolResult) (q1 q2 e : String)
    (orc2 : Nat → Except String ModelResponse)
    (h1 : jsToLower q1 ≠ "quit") (h2 : jsToLower q1 ≠ "tools")
    (h3 : jsToLower q2 ≠ "quit") (h4 : jsToLower q2 ≠ "tools") :
    processQuery st0 (fun _ => Except.error e) tool q1 = "Error: " ++ e ∧
    chatLoop st0 (fun t => if t = 0 then fun _ => Except.error e else orc2) tool 0 [q1, q2]
      = [(q1, runTurn st0 (fun _ => Except.error e) tool q1),
         (q2, runTurn st0 orc2 tool q2)] := by
  constructor
  · rfl
  · simp [chatLoop, h1, h2, h3, h4]

/-- Witness for claim C8: a concrete session whose first turn fails with
the message boom and whose second turn completes normally. -/
theorem claim_C8_witness :
    (jsToLower "hi" ≠ "quit" ∧ jsToLower "hi" ≠ "tools" ∧
     jsToLower "again" ≠ "quit" ∧ jsToLower "again" ≠ "tools") ∧
    processQuery (mkMCPClient none) (fun _ => Except.error "boom")
        (fun _ _ => { content := ToolContent.str "" }) "hi" = "Error: " ++ "boom" ∧
    chatLoop (mkMCPClient none)
        (fun t => if t = 0 then fun _ => Except.error "boom"
                  else fun _ => Except.ok { content := [RespBlock.text "ok"] })
        (fun _ _ => { content := ToolContent.str "" }) 0 ["hi", "again"]
      = [("hi", runTurn (mkMCPClient none) (fun _ => Except.error "boom")
            (fun _ _ => { content := ToolContent.str "" }) "hi"),
         ("again", runTurn (mkMCPClient none) (fun _ => Except.ok { content := [RespBlock.text "ok"] })
            (fun _ _ => { content := ToolContent.str "" }) "again")] := by
  refine ⟨⟨by decide, by decide, by decide, by decide⟩, ?_⟩
  exact claim_C8_model_error_caught (mkMCPClient none)
    (fun _ _ => { content := ToolContent.str "" }) "hi" "again" "boom"
    (fun _ => Except.ok { content := [RespBlock.text "ok"] })
    (by decide) (by decide) (by decide) (by decide)

/-- Claim C9: the optional inference-profile-id argument has no effect on
any model request.  The MCPClient constructor discards its parameter, the
inferenceProfileId field stays null, inferenceProfileArn is never attached
to command parameters, every request uses the fixed model id, and every
observable of a turn is identical for any two values of the argument. -/
theorem claim_C9_inference_profile_no_effect (p q : Option String) :
    mkMCPClient p = mkMCPClient q ∧
    (mkMCPClient p).inferenceProfileId = none ∧
    (∀ pay : Payload,
      (mkCommandParams (mkMCPClient p) pay).inferenceProfileArn = none ∧
      (mkCommandParams (mkMCPClient p) pay).modelId =
        "anthropic.claude-3-sonnet-20240229-v1:0") ∧
    (∀ (path : String) (lt : Except String (List RawTool)),
      connectToServer (mkMCPClient p) path lt = connectToServer (mkMCPClient q) path lt) ∧
    (∀ (oracle : Nat → Except String ModelResponse)
       (tool : String → CallArgs → ToolResult) (query : String),
      runTurn (mkMCPClient p) oracle tool query = runTurn (mkMCPClient q) oracle tool query) :=
  ⟨rfl, rfl, fun _ => ⟨rfl, rfl⟩, fun _ _ => rfl, fun _ _ _ => rfl⟩

/-- Claim C7: for every tool result whose text payload parses as JSON with
a truthy items property, the tool_result message appended to the
transcript carries the serialized result content followed by the full
two-space-indented JSON rendering of that items value — the parsed items
payload reaches the transcript verbatim and untruncated. -/
theorem claim_C7_items_roundtrip (cid : String) (c : ToolContent) (s : String)
    (j items : Json)
    (h1 : parseSourceText c = some s) (h2 : parseJson s = some j)
    (h3 : jsTruthy j = true) (h4 : jGet j "items" = some items)
    (h5 : jsTruthy items = true) :
    toolResultMessage cid c =
      Message.userToolResult cid
        (toolResultContentOf c ++ ("\nActual items:\n" ++ stringifyIndent 0 items)) := by
  unfold toolResultMessage itemsTextOf
  simp only [h1, h2, h3, h4, h5, eq_self_iff_true, if_true]

/-- Witness for claim C7: a concrete string payload carrying a two-element
items array, parsed and rendered back into the transcript message. -/
theorem claim_C7_witness :
    parseSourceText (ToolContent.str "\x7b\"items\": [1, 2]\x7d")
      = some "\x7b\"items\": [1, 2]\x7d" ∧
    parseJson "\x7b\"items\": [1, 2]\x7d"
      = some (Json.obj [("items", Json.arr [Json.num 1, Json.num 2])]) ∧
    jsTruthy (Json.obj [("items", Json.arr [Json.num 1, Json.num 2])]) = true ∧
    jGet (Json.obj [("items", Json.arr [Json.num 1, Json.num 2])]) "items"
      = some (Json.arr [Json.num 1, Json.num 2]) ∧
    jsTruthy (Json.arr [Json.num 1, Json.num 2]) = true ∧
    toolResultMessage "toolu_1" (ToolContent.str "\x7b\"items\": [1, 2]\x7d")
      = Message.userToolResult "toolu_1"
          (toolResultContentOf (ToolContent.str "\x7b\"items\": [1, 2]\x7d") ++
            ("\nActual items:\n" ++ stringifyIndent 0 (Json.arr [Json.num 1, Json.num 2]))) :=
  ⟨rfl, rfl, rfl, rfl, rfl,
    claim_C7_items_roundtrip "toolu_1" (ToolContent.str "\x7b\"items\": [1, 2]\x7d")
      "\x7b\"items\": [1, 2]\x7d" (Json.obj [("items", Json.arr [Json.num 1, Json.num 2])])
      (Json.arr [Json.num 1, Json.num 2]) rfl rfl rfl rfl rfl⟩

/-- Claim C10: processing one tool_use block pushes the calling-tool trace
line twice into the display output and the tool result twice into the
result list: once at dispatch (naming the actually dispatched call, the
scan fallback in the rewritten case) and once more unconditionally
afterwards, naming the originally requested tool with the original
arguments — so the output of a rewritten call names both operations. -/
theorem claim_C10_double_trace (st0 : MCPClientState)
    (oracle : Nat → Except String ModelResponse) (tool : String → CallArgs → ToolResult)
    (st : TState) (cid name : String) (args : ToolArgs) (h : st.err = none) :
    (stepBlock st0 oracle tool st (RespBlock.tool_use cid name args)).texts =
      st.texts ++ [callTrace (dispatchOf name args).1 (dispatchOf name args).2,
                   callTrace name (CallArgs.orig args)] ++ followUpTextsAt oracle st.idx ∧
    (stepBlock st0 oracle tool st (RespBlock.tool_use cid name args)).toolResults =
      st.toolResults ++ [tool (dispatchOf name args).1 (dispatchOf name args).2,
                         tool (dispatchOf name args).1 (dispatchOf name args).2] ∧
    ((name == "query_table" && isInvalidKeyCondition args) = true →
      dispatchOf name args = ("scan_table", CallArgs.scan (scanArgsOf args))) := by
  have herr : st.err.isSome = false := by rw [h]; rfl
  refine ⟨?_, ?_, ?_⟩
  · cases horacle : oracle st.idx <;>
      simp [stepBlock, herr, horacle, followUpTextsAt]
  · cases horacle : oracle st.idx <;>
      simp [stepBlock, herr, horacle]
  · intro hc
    unfold dispatchOf
    rw [if_pos hc]

/-- Witness for claim C10: a rewritten query_table block processed from a
fresh state; the two trace lines name the scan fallback and the original
query call, and the result is pushed twice. -/
theorem claim_C10_witness :
    (({ msgs := [Message.user "q"], texts := [], toolResults := [], reqs := [],
        idx := 1, err := none } : TState).err = none) ∧
    (stepBlock (mkMCPClient none) (fun _ => Except.ok { content := [RespBlock.text "done"] })
        (fun _ _ => { content := ToolContent.str "[]" })
        { msgs := [Message.user "q"], texts := [], toolResults := [], reqs := [],
          idx := 1, err := none }
        (RespBlock.tool_use "t1" "query_table"
          { keyConditionExpression := some "id > :v",
            expressionAttributeValues := some [(":v", Json.num 5)] })).texts =
      [] ++ [callTrace (dispatchOf "query_table"
               { keyConditionExpression := some "id > :v",
                 expressionAttributeValues := some [(":v", Json.num 5)] }).1
               (dispatchOf "query_table"
               { keyConditionExpression := some "id > :v",
                 expressionAttributeValues := some [(":v", Json.num 5)] }).2,
             callTrace "query_table" (CallArgs.orig
               { keyConditionExpression := some "id > :v",
                 expressionAttributeValues := some [(":v", Json.num 5)] })] ++
        followUpTextsAt (fun _ => Except.ok { content := [RespBlock.text "done"] }) 1 ∧
    (stepBlock (mkMCPClient none) (fun _ => Except.ok { content := [RespBlock.text "done"] })
        (fun _ _ => { content := ToolContent.str "[]" })
        { msgs := [Message.user "q"], texts := [], toolResults := [], reqs := [],
          idx := 1, err := none }
        (RespBlock.tool_use "t1" "query_table"
          { keyConditionExpression := some "id > :v",
            expressionAttributeValues := some [(":v", Json.num 5)] })).toolResults =
      [] ++ [{ content := ToolContent.str "[]" }, { content := ToolContent.str "[]" }] ∧
    dispatchOf "query_table"
        { keyConditionExpression := some "id > :v",
          expressionAttributeValues := some [(":v", Json.num 5)] }
      = ("scan_table", CallArgs.scan (scanArgsOf
          { keyConditionExpression := some "id > :v",
            expressionAttributeValues := some [(":v", Json.num 5)] })) := by
  obtain ⟨h1, h2, h3⟩ := claim_C10_double_trace (mkMCPClient none)
    (fun _ => Except.ok { content := [RespBlock.text "done"] })
    (fun _ _ => { content := ToolContent.str "[]" })
    { msgs := [Message.user "q"], texts := [], toolResults := [], reqs := [],
      idx := 1, err := none }
    "t1" "query_table"
    { keyConditionExpression := some "id > :v",
      expressionAttributeValues := some [(":v", Json.num 5)] }
    rfl
  exact ⟨rfl, h1, h2, h3 rfl⟩

/-- Appending a tool_use message immediately followed by its tool_result
message preserves transcript pairing. -/
theorem wellPaired_append_pair (i n : String) (a : ToolArgs) (c : ToolContent) :
    ∀ ms, wellPaired ms = true →
      wellPaired (ms ++ [Message.assistantToolUse i n a, toolResultMessage i c]) = true := by
  intro ms
  induction ms using wellPaired.induct <;> simp_all [wellPaired, toolResultMessage]

/-- Appending one tool_use/tool_result pair adds exactly one tool use. -/
theorem countUses_append_pair (ms : List Message) (i n : String) (a : ToolArgs)
    (c : ToolContent) :
    countUses (ms ++ [Message.assistantToolUse i n a, toolResultMessage i c])
      = countUses ms + 1 := by
  simp [countUses, List.filter_append, isUseMsg, toolResultMessage]

/-- A transcript extended by a tool_use/tool_result pair ends with a
matched pair. -/
theorem endsWithMatchedPair_append_pair (ms : List Message) (i n : String) (a : ToolArgs)
    (c : ToolContent) :
    endsWithMatchedPair (ms ++ [Message.assistantToolUse i n a, toolResultMessage i c])
      = true := by
  unfold endsWithMatchedPair toolResultMessage
  simp [List.reverse_append]

/-- Processing a tool_use block appends exactly the tool_use message and
its tool_result message to the transcript, and exactly one follow-up
request whose payload snapshots the extended transcript. -/
theorem stepBlock_tool_use_shape (st0 : MCPClientState)
    (oracle : Nat → Except String ModelResponse) (tool : String → CallArgs → ToolResult)
    (st : TState) (cid name : String) (args : ToolArgs) (herr : st.err.isSome = false) :
    (stepBlock st0 oracle tool st (RespBlock.tool_use cid name args)).msgs =
      st.msgs ++ [Message.assistantToolUse cid name args,
        toolResultMessage cid (tool (dispatchOf name args).1 (dispatchOf name args).2).content] ∧
    (stepBlock st0 oracle tool st (RespBlock.tool_use cid name args)).reqs =
      st.reqs ++ [mkCommandParams st0 (mkPayload st0 (st.msgs ++
        [Message.assistantToolUse cid name args,
         toolResultMessage cid (tool (dispatchOf name args).1 (dispatchOf name args).2).content]))] := by
  cases horacle : oracle st.idx <;>
    exact ⟨by simp [stepBlock, herr, horacle], by simp [stepBlock, herr, horacle]⟩

/-- Block processing preserves the turn invariant. -/
theorem stepBlock_inv (st0 : MCPClientState) (oracle : Nat → Except String ModelResponse)
    (tool : String → CallArgs → ToolResult) (st : TState) (b : RespBlock)
    (h : TurnInv st) : TurnInv (stepBlock st0 oracle tool st b) := by
  obtain ⟨h1, h2, h3, h4⟩ := h
  cases herr : st.err.isSome with
  | true =>
    have hst : stepBlock st0 oracle tool st b = st := by simp [stepBlock, herr]
    rw [hst]
    exact ⟨h1, h2, h3, h4⟩
  | false =>
    cases b with
    | text s =>
      have hst : stepBlock st0 oracle tool st (RespBlock.text s)
          = { st with texts := st.texts ++ [s] } := by simp [stepBlock, herr]
      rw [hst]
      exact ⟨h1, h2, h3, h4⟩
    | tool_use cid name args =>
      obtain ⟨hm, hr⟩ := stepBlock_tool_use_shape st0 oracle tool st cid name args herr
      unfold TurnInv
      rw [hm, hr]
      rcases hre : st.reqs with _ | ⟨y, ys⟩
      · exact absurd hre h4
      refine ⟨wellPaired_append_pair _ _ _ _ _ h1, ?_, ?_, by simp⟩
      · rw [countUses_append_pair]
        rw [hre] at h2
        simp only [List.length_append, List.length_cons, List.length_nil] at h2 ⊢
        omega
      · rw [hre] at h3
        simp only [List.cons_append, List.drop_succ_cons, List.drop_zero] at h3 ⊢
        rw [List.all_append]
        simp only [h3, Bool.true_and, List.all_cons, List.all_nil, Bool.and_true]
        exact endsWithMatchedPair_append_pair _ _ _ _ _

/-- Folding block processing over any block list preserves the turn
invariant. -/
theorem foldl_stepBlock_inv (st0 : MCPClientState)
    (oracle : Nat → Except String ModelResponse) (tool : String → CallArgs → ToolResult) :
    ∀ (bs : List RespBlock) (st : TState), TurnInv st →
      TurnInv (List.foldl (stepBlock st0 oracle tool) st bs) := by
  intro bs
  induction bs with
  | nil => intro st h; simpa using h
  | cons b bs ih =>
    intro st h
    rw [List.foldl_cons]
    exact ih _ (stepBlock_inv st0 oracle tool st b h)

/-- Claim C6: within a single turn, every tool-invocation-request message
appended to the transcript is immediately followed by exactly one
tool-result message with the same correlation id (and tool-result messages
appear nowhere else), exactly one follow-up completion request is issued
per appended tool-use block on top of the initial request, and every
follow-up request is issued only after its tool-result message has been
appended — its payload ends with the matched pair. -/
theorem claim_C6_tool_result_pairing (st0 : MCPClientState)
    (oracle : Nat → Except String ModelResponse) (tool : String → CallArgs → ToolResult)
    (query : String) :
    wellPaired (runTurn st0 oracle tool query).msgs = true ∧
    (runTurn st0 oracle tool query).reqs.length =
      1 + countUses (runTurn st0 oracle tool query).msgs ∧
    (((runTurn st0 oracle tool query).reqs.drop 1).all
      fun r => endsWithMatchedPair r.body.messages) = true := by
  unfold runTurn
  cases horacle : oracle 0 with
  | error e => exact ⟨rfl, rfl, rfl⟩
  | ok resp =>
    have h := foldl_stepBlock_inv st0 oracle tool resp.content
      { msgs := [Message.user query], texts := [], toolResults := [],
        reqs := [mkCommandParams st0 (mkPayload st0 [Message.user query])],
        idx := 1, err := none }
      ⟨rfl, rfl, rfl, by simp⟩
    exact ⟨h.1, h.2.1, h.2.2.1⟩

end DynamoMcp
